import Mathlib

/-!
Shallow embedding of the CrowdDynamics simulation core, with proofs checking
the natural-language specification against the code.

Conventions of the embedding:
* machine floats become real numbers (`ℝ`); 2-d numpy vectors become `ℝ × ℝ`;
* `np.nan` initial values in minimum-searches become `Option` accumulators
  (a NaN comparison is always false, exactly like the `none` case);
* numpy arrays indexed by agent become functions `ℕ → _`; fixed-size numpy
  rows (the neighbor buffers) become lists;
* fallible code paths return `Option`;
* the Monte-Carlo placement loop's bounded `while` becomes fuel recursion,
  the fuel being exactly the remaining iteration budget.
-/

set_option maxHeartbeats 1000000

noncomputable section

open Real

/-- 2-d vector, mirroring a numpy array of shape `(2,)`. -/
abbrev Vec2 : Type := ℝ × ℝ

/-- `dot2d` from `crowddynamics/core/vector2D`. -/
def dot2d (a b : Vec2) : ℝ := a.1 * b.1 + a.2 * b.2

/-- `cross2d` from `crowddynamics/core/vector2D`: scalar cross product. -/
def cross2d (a b : Vec2) : ℝ := a.1 * b.2 - a.2 * b.1

/-- `rotate90` : 90 degree counterclockwise rotation. -/
def rotate90 (a : Vec2) : Vec2 := (-a.2, a.1)

/-- `rotate270` : 270 degree counterclockwise rotation. -/
def rotate270 (a : Vec2) : Vec2 := (a.2, -a.1)

/-- `length` from `crowddynamics/core/vector2D` (`np.hypot`): Euclidean norm. -/
def len (a : Vec2) : ℝ := Real.sqrt (a.1 ^ 2 + a.2 ^ 2)

/-- `distance_circle_circle` from `crowddynamics/core/interactions/distance.py`:
skin-to-skin distance and normal between two circles; zero normal when the
centers coincide. -/
def distance_circle_circle (x0 : Vec2) (r0 : ℝ) (x1 : Vec2) (r1 : ℝ) :
    ℝ × Vec2 :=
  let x := x0 - x1
  let d := len x
  let r_tot := r0 + r1
  let h := d - r_tot
  if d = 0 then (h, (0, 0)) else (h, (x.1 / d, x.2 / d))

/-- The enumeration order of the `3 × 3` disk-pair double loop in
`distance_three_circle` (outer loop over body 0's disks). -/
def allPairs3 : List (Fin 3 × Fin 3) :=
  [(0, 0), (0, 1), (0, 2), (1, 0), (1, 1), (1, 2), (2, 0), (2, 1), (2, 2)]

/-- The minimum-search of `distance_three_circle`: the accumulator is `none`
while `h_min` is still the initial `np.nan` (any comparison against NaN is
false, so the first pair is always accepted), and afterwards holds
`(h_min, normal, i_min, j_min)`. -/
def d3cBest (x0 : Fin 3 → Vec2) (r0 : Fin 3 → ℝ)
    (x1 : Fin 3 → Vec2) (r1 : Fin 3 → ℝ) :
    Option (ℝ × Vec2 × Fin 3 × Fin 3) :=
  allPairs3.foldl
    (fun acc ij =>
      let hn := distance_circle_circle (x0 ij.1) (r0 ij.1) (x1 ij.2) (r1 ij.2)
      match acc with
      | none => some (hn.1, hn.2, ij.1, ij.2)
      | some best =>
          if hn.1 < best.1 then some (hn.1, hn.2, ij.1, ij.2) else acc)
    none

/-- `distance_three_circle` from `crowddynamics/core/interactions/distance.py`.
Returns `(h_min, normal, r_moment0, r_moment1)`.  The moment arms are read
off the minimizing indices `i_min`, `j_min`; note that line 103 of the source
builds `r_moment1` from `x0[j_min]` (body 0's disk array). -/
def distance_three_circle (x0 : Fin 3 → Vec2) (r0 : Fin 3 → ℝ)
    (x1 : Fin 3 → Vec2) (r1 : Fin 3 → ℝ) :
    ℝ × Vec2 × Vec2 × Vec2 :=
  match d3cBest x0 r0 x1 r1 with
  | some (h, n, im, jm) =>
      (h, n, x0 im + r0 im • n - x0 0, x0 jm - r1 jm • n - x1 0)
  | none => (0, (0, 0), (0, 0), (0, 0))

/-- `distance_circle_line` from `crowddynamics/core/interactions/distance.py`:
skin-to-skin distance between a circle and a segment `p0 p1`, with normal. -/
def distance_circle_line (x : Vec2) (r : ℝ) (p0 p1 : Vec2) : ℝ × Vec2 :=
  let d := p1 - p0
  let l_w := len d
  let t_w : Vec2 := (d.1 / l_w, d.2 / l_w)
  let n_w := rotate90 t_w
  let q0 := x - p0
  let q1 := x - p1
  let l_t := - dot2d t_w q1 - dot2d t_w q0
  if l_t > l_w then
    let d_iw := len q0
    (d_iw - r, (q0.1 / d_iw, q0.2 / d_iw))
  else if l_t < - l_w then
    let d_iw := len q1
    (d_iw - r, (q1.1 / d_iw, q1.2 / d_iw))
  else
    let l_n := dot2d n_w q0
    (|l_n| - r, Real.sign l_n • n_w)

/-- `distance_circle_line` instrumented for definedness: every division the
Python code performs is guarded, and the result is `none` exactly when some
executed division divides by zero (where the float code would produce a
non-finite normal). -/
def distance_circle_line_checked (x : Vec2) (r : ℝ) (p0 p1 : Vec2) :
    Option (ℝ × Vec2) :=
  let d := p1 - p0
  let l_w := len d
  if l_w = 0 then none else
  let t_w : Vec2 := (d.1 / l_w, d.2 / l_w)
  let n_w := rotate90 t_w
  let q0 := x - p0
  let q1 := x - p1
  let l_t := - dot2d t_w q1 - dot2d t_w q0
  if l_t > l_w then
    let d_iw := len q0
    if d_iw = 0 then none else some (d_iw - r, (q0.1 / d_iw, q0.2 / d_iw))
  else if l_t < - l_w then
    let d_iw := len q1
    if d_iw = 0 then none else some (d_iw - r, (q1.1 / d_iw, q1.2 / d_iw))
  else
    let l_n := dot2d n_w q0
    some (|l_n| - r, Real.sign l_n • n_w)

/-- `a = v_ij · v_ij` of the power-law quadratic in `f_soc_ij`. -/
def socA (v : Vec2) : ℝ := dot2d v v

/-- `b = −x_ij · v_ij` of the power-law quadratic in `f_soc_ij`. -/
def socB (x v : Vec2) : ℝ := - dot2d x v

/-- `c = x_ij · x_ij − r_ij²` of the power-law quadratic in `f_soc_ij`. -/
def socC (x : Vec2) (r : ℝ) : ℝ := dot2d x x - r ^ 2

/-- Discriminant `d = b² − a·c` of the power-law quadratic in `f_soc_ij`. -/
def socD (x v : Vec2) (r : ℝ) : ℝ := socB x v ^ 2 - socA v * socC x r

/-- Time-to-collision `tau = (b − √d)/a` computed by `f_soc_ij`. -/
def socTau (x v : Vec2) (r : ℝ) : ℝ :=
  (socB x v - Real.sqrt (socD x v r)) / socA v

/-- `f_soc_ij` from `source/core/force_agents.py`: the anticipatory
("power-law") social force between two disks, with magnitude clamp to
`f_max`. -/
def f_soc_ij (x_ij v_ij : Vec2) (r_ij k tau_0 f_max : ℝ) : Vec2 :=
  let a := socA v_ij
  let b := socB x_ij v_ij
  let d := socD x_ij v_ij r_ij
  if d < 0 ∨ (-0.001 < a ∧ a < 0.001) then (0, 0)
  else
    let ds := Real.sqrt d
    let tau := (b - ds) / a
    if tau < 0 ∨ tau > 999 then (0, 0)
    else
      let force : Vec2 :=
        -(k / (a * tau ^ 2) * Real.exp (-tau / tau_0)) •
          ((2 / tau + 1 / tau_0) • (v_ij - (1 / ds) • (b • v_ij + a • x_ij)))
      let mag := len force
      if mag > f_max then (f_max / mag) • force else force

/-- `force_contact` from `crowddynamics/core/interactions.py` (same formula in
`crowddynamics/core/motion/force.py`): frictional contact force with
damping. -/
def force_contact (h : ℝ) (n v t : Vec2) (mu kappa damping : ℝ) : Vec2 :=
  (-h) • (mu • n - (kappa * dot2d v t) • t) + (damping * dot2d v n) • n

/-- `force_social_helbing` from `crowddynamics/core/motion/force.py`:
`A·exp(−h/B)·n̂`. -/
def force_social_helbing (h : ℝ) (n : Vec2) (a b : ℝ) : Vec2 :=
  (a * Real.exp (- h / b)) • n

/-- `np.max` of a neighbor-distance row (rows are nonempty in use; the
empty case is junk, `np.max` of an empty array raises). -/
def listMax : List ℝ → ℝ
  | [] => 0
  | x :: xs => xs.foldl max x

/-- Tail of `np.argmax`: scan the remaining entries, current index `k`,
running best `(index, value)`; a later entry replaces the best only when
strictly greater, so the first index attaining the maximum wins. -/
def argmaxAux : List ℝ → ℕ → ℕ × ℝ → ℕ × ℝ
  | [], _, best => best
  | y :: ys, k, best =>
      if y > best.2 then argmaxAux ys (k + 1) (k, y)
      else argmaxAux ys (k + 1) best

/-- `np.argmax` of a neighbor-distance row: first index of the maximum. -/
def argmaxIdx : List ℝ → ℕ
  | [] => 0
  | x :: xs => (argmaxAux xs 1 (0, x)).1

/-- The structure-of-arrays agent store of
`crowddynamics/core/agent/agents.py`, restricted to the fields read or
written by `crowddynamics/core/interactions.py` and the phase updates.
Per-agent numpy columns become functions of the agent index; scalar
population-level tunables are plain fields; the fixed-width neighbor rows
become lists. -/
structure Agent where
  position : ℕ → Vec2
  position_ls : ℕ → Vec2
  position_rs : ℕ → Vec2
  velocity : ℕ → Vec2
  radius : ℕ → ℝ
  active : ℕ → Bool
  mass : ℕ → ℝ
  tau_adj : ℝ
  target_velocity : ℕ → ℝ
  target_direction : ℕ → Vec2
  std_rand_force : ℝ
  r_t : ℕ → ℝ
  r_s : ℕ → ℝ
  force : ℕ → Vec2
  torque : ℕ → ℝ
  three_circle : Bool
  orientable : Bool
  sight_soc : ℝ
  sight_wall : ℝ
  mu : ℝ
  kappa : ℝ
  damping : ℝ
  k_soc : ℝ
  tau_0 : ℝ
  f_soc_ij_max : ℝ
  a_wall : ℝ
  b_wall : ℝ
  neighbor_radius : ℝ
  neighbors : ℕ → List ℕ
  neighbor_distances : ℕ → List ℝ
  neighbor_distances_max : ℕ → ℝ

/-- The disk-position triple `(position, position_ls, position_rs)` of agent
`i`, in the enumeration order of the interaction kernels. -/
def diskPos (a : Agent) (i : ℕ) : Fin 3 → Vec2 :=
  fun k => if k = 0 then a.position i
    else if k = 1 then a.position_ls i else a.position_rs i

/-- The disk-radius triple `(r_t, r_s, r_s)` of agent `i`. -/
def diskRad (a : Agent) (i : ℕ) : Fin 3 → ℝ :=
  fun k => if k = 0 then a.r_t i else a.r_s i

/-- Modelled from the spec: `force_social_circular` lives in the
`crowddynamics/core/interactions/power_law` module, which is not among the
source files; per the spec the power-law force `f` (the formula of
`f_soc_ij`) acts on agent `i` and "the partner gets `−f` (Newton's third
law)". -/
def force_social_circular (a : Agent) (i j : ℕ) : Vec2 × Vec2 :=
  let f := f_soc_ij (a.position i - a.position j) (a.velocity i - a.velocity j)
    (a.radius i + a.radius j) a.k_soc a.tau_0 a.f_soc_ij_max
  (f, -f)

/-- Modelled from the spec: `force_social_three_circle` of the missing
`power_law` module; per the spec the three-circle variant evaluates the
power-law force "on each disk-pair" and sums, the partner again receiving
the opposite total. -/
def force_social_three_circle (a : Agent) (i j : ℕ) : Vec2 × Vec2 :=
  let f := allPairs3.foldl
    (fun acc kl =>
      acc + f_soc_ij (diskPos a i kl.1 - diskPos a j kl.2)
        (a.velocity i - a.velocity j)
        (diskRad a i kl.1 + diskRad a j kl.2) a.k_soc a.tau_0 a.f_soc_ij_max)
    (0, 0)
  (f, -f)

/-- The minimum-search of `agent_agent_distance_three_circle` from
`crowddynamics/core/interactions.py`: accumulator `none` models the
`np.nan` initial `relative_distance`; afterwards it holds
`(h, (x_i_min, x_j_min), (r_i_min, r_j_min), normal)`. -/
def aad3cBest (a : Agent) (i j : ℕ) : Option (ℝ × (Vec2 × Vec2) × (ℝ × ℝ) × Vec2) :=
  allPairs3.foldl
    (fun acc kl =>
      let xi := diskPos a i kl.1
      let xj := diskPos a j kl.2
      let ri := diskRad a i kl.1
      let rj := diskRad a j kl.2
      let x := xi - xj
      let d := len x
      let h := d - (ri + rj)
      match acc with
      | none => some (h, (xi, xj), (ri, rj), (x.1 / d, x.2 / d))
      | some best =>
          if h < best.1 then some (h, (xi, xj), (ri, rj), (x.1 / d, x.2 / d))
          else acc)
    none

/-- `agent_agent_distance_three_circle` from
`crowddynamics/core/interactions.py` (the in-lined variant of
`distance_three_circle`): returns `(normal, h, r_moment_i, r_moment_j)`,
the moment arms built from the minimizing positions `positions[0]`,
`positions[1]`. -/
def agent_agent_distance_three_circle (a : Agent) (i j : ℕ) :
    Vec2 × ℝ × Vec2 × Vec2 :=
  match aad3cBest a i j with
  | some (h, pos, rad, n) =>
      (n, h, pos.1 + rad.1 • n - a.position i, pos.2 - rad.2 • n - a.position j)
  | none => ((0, 0), 0, (0, 0), (0, 0))

/-- The value bound to the local variable `h` of `agent_agent_interaction`
when control reaches the neighbor-list block: `h` is re-assigned from the
three-circle distance only inside the `d <= sight_soc` branch of the
three-circle model, otherwise it keeps `d − r_tot`. -/
def hNeighbor (a : Agent) (i j : ℕ) : ℝ :=
  let d := len (a.position i - a.position j)
  if d ≤ a.sight_soc ∧ a.three_circle = true then
    (agent_agent_distance_three_circle a i j).2.1
  else d - (a.radius i + a.radius j)

/-- The neighbor-list insertion of `agent_agent_interaction` (one side):
replace the entry at `np.argmax(neighbor_distances[i])` by `(j, h)` and
re-compute `neighbor_distances_max[i]` with `np.max`. -/
def insertNeighbor (a : Agent) (i j : ℕ) (h : ℝ) : Agent :=
  let ind := argmaxIdx (a.neighbor_distances i)
  { a with
    neighbors := Function.update a.neighbors i ((a.neighbors i).set ind j)
    neighbor_distances :=
      Function.update a.neighbor_distances i ((a.neighbor_distances i).set ind h)
    neighbor_distances_max :=
      Function.update a.neighbor_distances_max i
        (listMax ((a.neighbor_distances i).set ind h)) }

/-- The per-pair data `(n, h, r_moment_i, r_moment_j, force_i, force_j)`
computed inside the `d <= sight_soc` branch of `agent_agent_interaction`,
before the contact-force step: the three-circle sub-branch re-assigns
`n, h` and the moment arms from `agent_agent_distance_three_circle`, the
circular sub-branch keeps `h = d − r_tot`, `n = x/d` and zero moment
arms. -/
def aaiPairData (i j : ℕ) (a : Agent) : Vec2 × ℝ × Vec2 × Vec2 × Vec2 × Vec2 :=
  let x := a.position i - a.position j
  let d := len x
  let h0 := d - (a.radius i + a.radius j)
  if a.three_circle then
    let q := agent_agent_distance_three_circle a i j
    let fs := force_social_three_circle a i j
    (q.1, q.2.1, q.2.2.1, q.2.2.2, fs.1, fs.2)
  else
    let fs := force_social_circular a i j
    ((x.1 / d, x.2 / d), h0, ((0 : ℝ), (0 : ℝ)), ((0 : ℝ), (0 : ℝ)),
      fs.1, fs.2)

/-- The accumulated pair forces `(force_i, force_j)` of
`agent_agent_interaction`: the social forces, plus `±force_c` when the
bodies overlap (`h < 0`). -/
def aaiForces (i j : ℕ) (a : Agent) : Vec2 × Vec2 :=
  let nhf := aaiPairData i j a
  let n := nhf.1
  let h := nhf.2.1
  if h < 0 then
    let t := rotate270 n
    let v := a.velocity i - a.velocity j
    let fc := force_contact h n v t a.mu a.kappa a.damping
    (nhf.2.2.2.2.1 + fc, nhf.2.2.2.2.2 - fc)
  else (nhf.2.2.2.2.1, nhf.2.2.2.2.2)

/-- The force/torque accumulation block of `agent_agent_interaction`
(everything guarded by `d <= agent.sight_soc`). -/
def aaiForcePhase (i j : ℕ) (a : Agent) : Agent :=
  let d := len (a.position i - a.position j)
  if d ≤ a.sight_soc then
    let ff := aaiForces i j a
    let rmi := (aaiPairData i j a).2.2.1
    let rmj := (aaiPairData i j a).2.2.2.1
    let f1 := Function.update a.force i (a.force i + ff.1)
    let f2 := Function.update f1 j (f1 j + ff.2)
    let tq :=
      if a.orientable then
        let t1 := Function.update a.torque i (a.torque i + cross2d rmi ff.1)
        Function.update t1 j (t1 j + cross2d rmj ff.2)
      else a.torque
    { a with force := f2, torque := tq }
  else a

/-- `agent_agent_interaction` from `crowddynamics/core/interactions.py`:
the force/torque block followed by the neighbor-list maintenance block
(the latter gated only by `neighbor_radius`, not by sight). -/
def agent_agent_interaction (i j : ℕ) (a : Agent) : Agent :=
  let a1 := aaiForcePhase i j a
  let h := hNeighbor a i j
  if 0 < a1.neighbor_radius ∧ h < a1.neighbor_radius then
    let a2 :=
      if h < a1.neighbor_distances_max i then insertNeighbor a1 i j h else a1
    if h < a2.neighbor_distances_max j then insertNeighbor a2 j i h else a2
  else a1

/-- Modelled from the spec: `wall.distance_with_normal(w, x)` of the missing
`crowddynamics` obstacle module.  Per the spec (§3.2, §4.2) an obstacle is a
segment with precomputed tangent/normal, and the point-to-segment distance
with normal follows exactly the projection logic of `distance_circle_line`
with radius `0`. -/
def distance_with_normal (p0 p1 : Vec2) (x : Vec2) : ℝ × Vec2 :=
  distance_circle_line x 0 p0 p1

/-- The minimum-search of `agent_wall_distance` from
`crowddynamics/core/interactions.py`: accumulator `none` models the `np.nan`
initial `relative_distance`; afterwards holds `(h, position, radius, normal)`
of the current best disk. -/
def awdBest (a : Agent) (walls : ℕ → Vec2 × Vec2) (i w : ℕ) :
    Option (ℝ × Vec2 × ℝ × Vec2) :=
  ([0, 1, 2] : List (Fin 3)).foldl
    (fun acc k =>
      let xi := diskPos a i k
      let ri := diskRad a i k
      let dn := distance_with_normal (walls w).1 (walls w).2 xi
      let h := dn.1 - ri
      match acc with
      | none => some (h, xi, ri, dn.2)
      | some best => if h < best.1 then some (h, xi, ri, dn.2) else acc)
    none

/-- `agent_wall_distance` from `crowddynamics/core/interactions.py`:
distance between the three-circle model and a wall segment, returning
`(relative_distance, normal, r_moment_i)` with the moment arm taken at the
disk attaining the minimum. -/
def agent_wall_distance (a : Agent) (walls : ℕ → Vec2 × Vec2) (i w : ℕ) :
    ℝ × Vec2 × Vec2 :=
  match awdBest a walls i w with
  | some (h, pos, rad, n) => (h, n, pos - rad • n - a.position i)
  | none => (0, (0, 0), (0, 0))

/-- Modelled from the spec: `force_social_linear_wall` of the missing
`power_law` module.  Per the spec (§4.4) "the per-wall social law is the
Helbing exponential", evaluated on the agent's circular skin distance to the
wall. -/
def force_social_linear_wall (i w : ℕ) (a : Agent) (walls : ℕ → Vec2 × Vec2) :
    Vec2 :=
  let dn := distance_with_normal (walls w).1 (walls w).2 (a.position i)
  let h := dn.1 - a.radius i
  force_social_helbing h dn.2 a.a_wall a.b_wall

/-- `agent_wall_interaction` from `crowddynamics/core/interactions.py`.
In the three-circle branch the source computes
`h, n, r_moment_i = agent_wall_distance(...)` and then immediately
re-assigns `r_moment_i = np.zeros(2)` (line 171), which this embedding
reproduces. -/
def agent_wall_interaction (i w : ℕ) (a : Agent) (walls : ℕ → Vec2 × Vec2) :
    Agent :=
  let x := a.position i
  let r_tot := a.radius i
  let dn := distance_with_normal (walls w).1 (walls w).2 x
  let h0 := dn.1 - r_tot
  if h0 ≤ a.sight_wall then
    let hnr :=
      if a.three_circle then
        let q := agent_wall_distance a walls i w
        (q.1, q.2.1, ((0 : ℝ), (0 : ℝ)))
      else (h0, dn.2, ((0 : ℝ), (0 : ℝ)))
    let h := hnr.1
    let n := hnr.2.1
    let rm := hnr.2.2
    let f0 := force_social_linear_wall i w a walls
    let f :=
      if h < 0 then
        f0 + force_contact h n (a.velocity i) (rotate270 n) a.mu a.kappa a.damping
      else f0
    let force' := Function.update a.force i (a.force i + f)
    let torque' :=
      if a.orientable then
        Function.update a.torque i (a.torque i + cross2d rm f)
      else a.torque
    { a with force := force', torque := torque' }
  else a

/-- `force_adjust` from `crowddynamics/core/motion/force.py`:
`(m/τ_adj)·(v0·ê0 − v)`. -/
def force_adjust (mass tau_adj v0 : ℝ) (e0 v : Vec2) : Vec2 :=
  (mass / tau_adj) • (v0 • e0 - v)

/-- `force_fluctuation` from `crowddynamics/core/motion/force.py` evaluated
on one agent, with the random draws (truncated-normal magnitude and uniform
angle) passed in explicitly: `mass · ξ · (cos φ, sin φ)`. -/
def force_fluctuation (mass ξ φ : ℝ) : Vec2 :=
  (mass * (ξ * Real.cos φ), mass * (ξ * Real.sin φ))

/-- `Fluctuation.update` from `crowddynamics/multiagent/algorithms.py`:
assigns (not accumulates) the fluctuation force into `force` for every
active agent; torque draws (whose kernel is not among the source files) are
passed as the opaque per-agent values `tq`. -/
def fluctuationUpdate (ξ φ tq : ℕ → ℝ) (a : Agent) : Agent :=
  { a with
    force := fun i =>
      if a.active i then force_fluctuation (a.mass i) (ξ i) (φ i)
      else a.force i
    torque := fun i =>
      if a.orientable ∧ a.active i then tq i else a.torque i }

/-- `Adjusting.update` from `crowddynamics/multiagent/algorithms.py`:
assigns (not accumulates) the adjusting force into `force` for every active
agent; the rotational adjustment (whose kernel is not among the source
files) is passed as the opaque per-agent values `tq`. -/
def adjustingUpdate (tq : ℕ → ℝ) (a : Agent) : Agent :=
  { a with
    force := fun i =>
      if a.active i then
        force_adjust (a.mass i) a.tau_adj (a.target_velocity i)
          (a.target_direction i) (a.velocity i)
      else a.force i
    torque := fun i =>
      if a.orientable ∧ a.active i then tq i else a.torque i }

/-- `np.round` on an exact rational: round half to even. -/
def roundHalfEven (q : ℚ) : ℤ :=
  let f := ⌊q⌋
  let frac := q - f
  if frac < 1 / 2 then f
  else if 1 / 2 < frac then f + 1
  else if f % 2 = 0 then f else f + 1

/-- `to_indices` from `crowddynamics/core/steering/navigation.py`:
`np.round(points / step)` as integers. -/
def to_indices (p : ℚ × ℚ) (step : ℚ) : ℤ × ℤ :=
  (roundHalfEven (p.1 / step), roundHalfEven (p.2 / step))

/-- The `(row, col)` index at which `Navigation.update` from
`crowddynamics/multiagent/algorithms.py` reads the direction map: the
`np.fliplr` of `to_indices`, with no further transformation. -/
def navLookupIndex (p : ℚ × ℚ) (step : ℚ) : ℤ × ℤ :=
  (roundHalfEven (p.2 / step), roundHalfEven (p.1 / step))

/-- Number of samples of `np.arange(start, stop, step)` for positive
`step`. -/
def arangeLen (start stop step : ℚ) : ℕ := (⌈(stop - start) / step⌉).toNat

/-- Shape `(rows, cols)` of the direction map built by `meshgrid` /
`static_potential` over the bounding box `[minx, maxx] × [miny, maxy]`:
`np.arange(min, max + step, step)` samples per axis, rows indexed by `y`. -/
def navGridShape (minx maxx miny maxy step : ℚ) : ℕ × ℕ :=
  (arangeLen miny (maxy + step) step, arangeLen minx (maxx + step) step)

/-- The read `direction_map[idx]` is in bounds for an array of the given
`(rows, cols)` shape. -/
def inBounds (shape : ℕ × ℕ) (idx : ℤ × ℤ) : Prop :=
  0 ≤ idx.1 ∧ idx.1 < (shape.1 : ℤ) ∧ 0 ≤ idx.2 ∧ idx.2 < (shape.2 : ℤ)

instance (shape : ℕ × ℕ) (idx : ℤ × ℤ) : Decidable (inBounds shape idx) := by
  unfold inBounds; infer_instance

open scoped Classical in
/-- The acceptance test of one Monte-Carlo trial in
`Parameters.random_position` from `crowd_dynamics/parameters.py`: the drawn
point keeps a positive skin distance to every already-placed disk and to
every wall. -/
def rpAccept (placed : List Vec2) (radius : ℕ → ℝ) (walls : List (Vec2 → ℝ))
    (pos : Vec2) : Prop :=
  (∀ k pk, placed[k]? = some pk →
    len (pos - pk) - (radius placed.length + radius k) > 0) ∧
  (∀ wd ∈ walls, wd pos - radius placed.length > 0)

open scoped Classical in
/-- The `while` loop of `Parameters.random_position`, as fuel recursion: the
fuel is the remaining iteration budget (`max_iterations − iterations`), one
unit per Monte-Carlo trial; `placed` is the filled prefix of `position`;
the second component of the result is the final value of `iterations`.
`none` models the raised `Exception`. -/
def rpLoop (draws : ℕ → Vec2) (radius : ℕ → ℝ) (N : ℕ)
    (walls : List (Vec2 → ℝ)) :
    ℕ → List Vec2 → ℕ → Option (List Vec2) × ℕ
  | 0, placed, iters =>
      if N ≤ placed.length then (some placed, iters) else (none, iters)
  | fuel + 1, placed, iters =>
      if N ≤ placed.length then (some placed, iters)
      else
        let pos := draws iters
        if rpAccept placed radius walls pos then
          rpLoop draws radius N walls fuel (placed ++ [pos]) (iters + 1)
        else
          rpLoop draws radius N walls fuel placed (iters + 1)

/-- `Parameters.random_position` from `crowd_dynamics/parameters.py`:
`N` slots, iteration cap `100·N`, uniform draws passed in explicitly, walls
as their distance functions. -/
def random_position (draws : ℕ → Vec2) (radius : ℕ → ℝ) (N : ℕ)
    (walls : List (Vec2 → ℝ)) : Option (List Vec2) × ℕ :=
  rpLoop draws radius N walls (100 * N) [] 0

/-- All placed disks are pairwise non-overlapping:
`‖pos_k − pos_m‖ ≥ r_k + r_m` for `k ≠ m`. -/
def pairwiseNonoverlap (l : List Vec2) (radius : ℕ → ℝ) : Prop :=
  ∀ k m pk pm, k < m → l[k]? = some pk → l[m]? = some pm →
    len (pk - pm) ≥ radius k + radius m

/-- Every placed disk keeps a positive skin distance to every wall. -/
def wallsClear (l : List Vec2) (radius : ℕ → ℝ)
    (walls : List (Vec2 → ℝ)) : Prop :=
  ∀ k pk, l[k]? = some pk → ∀ wd ∈ walls, wd pk - radius k > 0

/-- An all-zero agent store, used as the base of the concrete stores below. -/
def zeroAgent : Agent where
  position := fun _ => (0, 0)
  position_ls := fun _ => (0, 0)
  position_rs := fun _ => (0, 0)
  velocity := fun _ => (0, 0)
  radius := fun _ => 0
  active := fun _ => true
  mass := fun _ => 0
  tau_adj := 0
  target_velocity := fun _ => 0
  target_direction := fun _ => (0, 0)
  std_rand_force := 0
  r_t := fun _ => 0
  r_s := fun _ => 0
  force := fun _ => (0, 0)
  torque := fun _ => 0
  three_circle := false
  orientable := false
  sight_soc := 0
  sight_wall := 0
  mu := 0
  kappa := 0
  damping := 0
  k_soc := 0
  tau_0 := 0
  f_soc_ij_max := 0
  a_wall := 0
  b_wall := 0
  neighbor_radius := 0
  neighbors := fun _ => []
  neighbor_distances := fun _ => []
  neighbor_distances_max := fun _ => 0

/-- Disk positions of body 0 in the concrete `distance_three_circle` input:
all three disks at the origin. -/
def c2x0 : Fin 3 → Vec2 := fun _ => (0, 0)

/-- Disk radii of body 0 in the concrete input: all `1`. -/
def c2r0 : Fin 3 → ℝ := fun _ => 1

/-- Disk positions of body 1 in the concrete input: all at `(5, 0)`. -/
def c2x1 : Fin 3 → Vec2 := fun _ => (5, 0)

/-- Disk radii of body 1 in the concrete input: all `1`. -/
def c2r1 : Fin 3 → ℝ := fun _ => 1

/-- Agent store matching the `c2` bodies, for evaluating the in-lined
variant `agent_agent_distance_three_circle` on the same configuration. -/
def agent2 : Agent :=
  { zeroAgent with
    three_circle := true
    position := fun i => if i = 0 then (0, 0) else (5, 0)
    position_ls := fun i => if i = 0 then (0, 0) else (5, 0)
    position_rs := fun i => if i = 0 then (0, 0) else (5, 0)
    r_t := fun _ => 1
    r_s := fun _ => 1 }

/-- Concrete store for the sight-gating counterexample: two point agents
`2` apart, `sight_soc = 1`, neighbor buffers of width one holding distance
`5`. -/
def agent4 : Agent :=
  { zeroAgent with
    position := fun i => if i = 0 then (0, 0) else (2, 0)
    sight_soc := 1
    neighbor_radius := 10
    neighbors := fun _ => [9]
    neighbor_distances := fun _ => [5]
    neighbor_distances_max := fun _ => 5 }

/-- Concrete three-circle store for the wall-torque evaluation: torso at
`(5, 0)` with radius `1`, left shoulder at `(3, 1)` and right shoulder at
`(7, −1)` with radius `1/2`; the left shoulder is the disk nearest the
wall. -/
def agent5 : Agent :=
  { zeroAgent with
    three_circle := true
    orientable := true
    position := fun _ => (5, 0)
    position_ls := fun _ => (3, 1)
    position_rs := fun _ => (7, -1)
    radius := fun _ => 1
    r_t := fun _ => 1
    r_s := fun _ => 1 / 2
    sight_wall := 10
    a_wall := 1
    b_wall := 1 }

/-- The single wall of the wall-torque evaluation: the vertical segment
from `(0, −10)` to `(0, 10)`. -/
def walls5 : ℕ → Vec2 × Vec2 := fun _ => ((0, -10), (0, 10))

/-- Concrete store for the neighbor-insertion witness: two point agents `1`
apart, wide sight disabled (`sight_soc = 0`), neighbor rows `[5, 2]` with
cached maximum `5`. -/
def agent10 : Agent :=
  { zeroAgent with
    position := fun i => if i = 0 then (0, 0) else (1, 0)
    neighbor_radius := 10
    neighbors := fun _ => [7, 8]
    neighbor_distances := fun _ => [5, 2]
    neighbor_distances_max := fun _ => 5 }

theorem argmaxAux_spec (ys : List ℝ) :
    ∀ (k bi : ℕ) (bv : ℝ),
      (argmaxAux ys k (bi, bv)).2 = ys.foldl max bv ∧
      (argmaxAux ys k (bi, bv) = (bi, bv) ∨
        ∃ m, m < ys.length ∧ (argmaxAux ys k (bi, bv)).1 = k + m ∧
          ys[m]? = some (argmaxAux ys k (bi, bv)).2) := by
  induction ys with
  | nil => intro k bi bv; exact ⟨rfl, Or.inl rfl⟩
  | cons y ys ih =>
    intro k bi bv
    by_cases hy : y > bv
    · have hmax : max bv y = y := max_eq_right hy.le
      have h1 : argmaxAux (y :: ys) k (bi, bv) = argmaxAux ys (k + 1) (k, y) := by
        simp [argmaxAux, hy]
      obtain ⟨hv, hp⟩ := ih (k + 1) k y
      refine ⟨by rw [h1, hv]; simp [List.foldl, hmax], ?_⟩
      rcases hp with h | ⟨m, hm, hidx, hget⟩
      · refine Or.inr ⟨0, by simp, ?_, ?_⟩
        · rw [h1, h]; simp
        · rw [h1, h]; simp
      · refine Or.inr ⟨m + 1, by simpa using hm, ?_, ?_⟩
        · rw [h1, hidx]; ring
        · rw [h1]; simpa using hget
    · have hmax : max bv y = bv := max_eq_left (not_lt.mp hy)
      have h1 : argmaxAux (y :: ys) k (bi, bv) = argmaxAux ys (k + 1) (bi, bv) := by
        simp [argmaxAux, hy]
      obtain ⟨hv, hp⟩ := ih (k + 1) bi bv
      refine ⟨by rw [h1, hv]; simp [List.foldl, hmax], ?_⟩
      rcases hp with h | ⟨m, hm, hidx, hget⟩
      · exact Or.inl (by rw [h1, h])
      · refine Or.inr ⟨m + 1, by simpa using hm, ?_, ?_⟩
        · rw [h1, hidx]; ring
        · rw [h1]; simpa using hget

/-- The entry at `np.argmax` of a nonempty row is the row's maximum. -/
theorem argmaxIdx_get (l : List ℝ) (hne : l ≠ []) :
    l[argmaxIdx l]? = some (listMax l) := by
  match l with
  | [] => exact absurd rfl hne
  | x :: xs =>
    obtain ⟨hv, hp⟩ := argmaxAux_spec xs 1 0 x
    rcases hp with h | ⟨m, hm, hidx, hget⟩
    · simp [argmaxIdx, h, listMax, hv.symm, h]
    · have : argmaxIdx (x :: xs) = m + 1 := by
        simp only [argmaxIdx, hidx]; ring
      rw [this]
      have : (x :: xs)[m + 1]? = xs[m]? := by simp
      rw [this, hget, hv]
      rfl

theorem len_nonneg (a : Vec2) : 0 ≤ len a := Real.sqrt_nonneg _

theorem len_zero_iff (a : Vec2) : len a = 0 ↔ a = (0, 0) := by
  constructor
  · intro h
    have h1 : a.1 ^ 2 + a.2 ^ 2 = 0 := by
      have := Real.sqrt_eq_zero (by positivity) |>.mp h
      exact this
    have h2 : a.1 = 0 := by nlinarith [sq_nonneg a.1, sq_nonneg a.2]
    have h3 : a.2 = 0 := by nlinarith [sq_nonneg a.1, sq_nonneg a.2]
    exact Prod.ext h2 h3
  · rintro rfl
    simp [len]

theorem len_smul (c : ℝ) (a : Vec2) : len (c • a) = |c| * len a := by
  unfold len
  rcases a with ⟨x, y⟩
  have : (c * x) ^ 2 + (c * y) ^ 2 = c ^ 2 * (x ^ 2 + y ^ 2) := by ring
  simp only [Prod.smul_mk, smul_eq_mul]
  rw [this, Real.sqrt_mul (by positivity), Real.sqrt_sq_eq_abs]

theorem insertNeighbor_force (a : Agent) (i j : ℕ) (h : ℝ) :
    (insertNeighbor a i j h).force = a.force := rfl

theorem insertNeighbor_torque (a : Agent) (i j : ℕ) (h : ℝ) :
    (insertNeighbor a i j h).torque = a.torque := rfl

/-- The neighbor-list block never writes `force`. -/
theorem aai_force_eq_phase (i j : ℕ) (a : Agent) :
    (agent_agent_interaction i j a).force = (aaiForcePhase i j a).force := by
  simp only [agent_agent_interaction]
  split_ifs <;> rfl

/-- The neighbor-list block never writes `torque`. -/
theorem aai_torque_eq_phase (i j : ℕ) (a : Agent) :
    (agent_agent_interaction i j a).torque = (aaiForcePhase i j a).torque := by
  simp only [agent_agent_interaction]
  split_ifs <;> rfl

/-- The pair forces of `agent_agent_interaction` are exactly opposite:
the social kernels return `(f, −f)` and the contact force is added to one
side and subtracted from the other. -/
theorem aaiForces_antisym (i j : ℕ) (a : Agent) :
    (aaiForces i j a).2 = -(aaiForces i j a).1 := by
  have hpd : (aaiPairData i j a).2.2.2.2.2 = -(aaiPairData i j a).2.2.2.2.1 := by
    simp only [aaiPairData, force_social_three_circle, force_social_circular]
    split_ifs <;> rfl
  simp only [aaiForces]
  split_ifs with h
  · simp only [hpd]; abel_nf
  · exact hpd

/-- **C1.** Newton's third law at the pair level: `agent_agent_interaction`
on a pair `(i, j)` adds some vector `f` to `force[i]` and exactly `−f` to
`force[j]` (social and contact contributions both antisymmetric) and leaves
every other agent's force unchanged, so in exact real arithmetic the sum of
all agents' force vectors is unchanged. -/
theorem aai_newton_third_law (a : Agent) (i j : ℕ) (hij : i ≠ j) :
    ∃ f : Vec2,
      (agent_agent_interaction i j a).force i = a.force i + f ∧
      (agent_agent_interaction i j a).force j = a.force j - f ∧
      (∀ k, k ≠ i → k ≠ j → (agent_agent_interaction i j a).force k = a.force k) := by
  have hforce := aai_force_eq_phase i j a
  by_cases hd : len (a.position i - a.position j) ≤ a.sight_soc
  · have hF : (aaiForcePhase i j a).force =
        Function.update
          (Function.update a.force i (a.force i + (aaiForces i j a).1)) j
          (Function.update a.force i (a.force i + (aaiForces i j a).1) j +
            (aaiForces i j a).2) := by
      simp only [aaiForcePhase, if_pos hd]
    refine ⟨(aaiForces i j a).1, ?_, ?_, ?_⟩
    · rw [hforce, hF, Function.update_noteq hij, Function.update_same]
    · rw [hforce, hF, Function.update_same, Function.update_noteq hij.symm,
        aaiForces_antisym, sub_eq_add_neg]
    · intro k hki hkj
      rw [hforce, hF, Function.update_noteq hkj, Function.update_noteq hki]
  · have hF : (aaiForcePhase i j a).force = a.force := by
      simp only [aaiForcePhase, if_neg hd]
    exact ⟨0, by rw [hforce, hF, add_zero], by rw [hforce, hF, sub_zero],
      fun k _ _ => by rw [hforce, hF]⟩

/-- Witness for `aai_newton_third_law` at the concrete pair `(0, 1)` of the
all-zero store. -/
theorem aai_newton_third_law_witness :
    ∃ f : Vec2,
      (agent_agent_interaction 0 1 zeroAgent).force 0 = zeroAgent.force 0 + f ∧
      (agent_agent_interaction 0 1 zeroAgent).force 1 = zeroAgent.force 1 - f ∧
      (∀ k, k ≠ 0 → k ≠ 1 →
        (agent_agent_interaction 0 1 zeroAgent).force k = zeroAgent.force k) :=
  aai_newton_third_law zeroAgent 0 1 (by norm_num)

/-- **C9.** The Adjusting phase assigns (`=`, not `+=`) the adjusting force
into the force array, so running it right after the Fluctuation phase
produces a force array independent of the fluctuation draws: the
fluctuation force is discarded for every agent. -/
theorem adjusting_discards_fluctuation (a : Agent) (ξ φ tqf tqa : ℕ → ℝ) :
    (adjustingUpdate tqa (fluctuationUpdate ξ φ tqf a)).force =
      (adjustingUpdate tqa a).force := by
  funext i
  by_cases h : a.active i = true <;>
    simp [adjustingUpdate, fluctuationUpdate, h]

/-- The final magnitude clamp of `f_soc_ij`: scaling to `f_max` when the
magnitude exceeds it bounds the result by `f_max`. -/
theorem len_clamp (F : Vec2) (fmax : ℝ) (hf : 0 ≤ fmax) :
    len (if len F > fmax then (fmax / len F) • F else F) ≤ fmax := by
  split_ifs with hm
  · have hpos : 0 < len F := lt_of_le_of_lt hf hm
    rw [len_smul, abs_of_nonneg (div_nonneg hf hpos.le),
      div_mul_cancel₀ _ hpos.ne']
  · exact not_lt.mp hm

/-- **C6.** `f_soc_ij` returns the zero vector whenever the discriminant is
negative, or `|a| < 10⁻³`, or the time-to-collision is negative or exceeds
`999`; in every other case the returned force has magnitude at most
`f_max`. -/
theorem f_soc_ij_guards_and_bound (x v : Vec2) (r k tau_0 f_max : ℝ)
    (hf : 0 ≤ f_max) :
    ((socD x v r < 0 ∨ |socA v| < 0.001 ∨ socTau x v r < 0 ∨
        socTau x v r > 999) →
      f_soc_ij x v r k tau_0 f_max = (0, 0)) ∧
    (¬(socD x v r < 0 ∨ |socA v| < 0.001 ∨ socTau x v r < 0 ∨
        socTau x v r > 999) →
      len (f_soc_ij x v r k tau_0 f_max) ≤ f_max) := by
  have htau : (socB x v - Real.sqrt (socD x v r)) / socA v = socTau x v r := rfl
  constructor
  · intro hguard
    by_cases h1 : socD x v r < 0 ∨ (-0.001 < socA v ∧ socA v < 0.001)
    · simp only [f_soc_ij, if_pos h1]
    · rcases hguard with hd | ha | ht0 | ht1
      · exact absurd (Or.inl hd) h1
      · exact absurd (Or.inr (abs_lt.mp ha)) h1
      · simp only [f_soc_ij, if_neg h1, htau, if_pos (Or.inl ht0)]
      · simp only [f_soc_ij, if_neg h1, htau, if_pos (Or.inr ht1)]
  · intro hguard
    push_neg at hguard
    obtain ⟨hd, ha, ht0, ht1⟩ := hguard
    have h1 : ¬(socD x v r < 0 ∨ (-0.001 < socA v ∧ socA v < 0.001)) := by
      rintro (h | h)
      · exact absurd h (not_lt.mpr hd)
      · exact absurd (abs_lt.mpr h) (not_lt.mpr ha)
    have h2 : ¬(socTau x v r < 0 ∨ socTau x v r > 999) := by
      rintro (h | h)
      · exact absurd h (not_lt.mpr ht0)
      · exact absurd h (not_lt.mpr ht1)
    simp only [f_soc_ij, if_neg h1, htau, if_neg h2]
    exact len_clamp _ _ hf

/-- Witness for `f_soc_ij_guards_and_bound`: two mutually static agents
(`v_ij = 0`, so `a = 0 < 10⁻³`) get zero force. -/
theorem f_soc_ij_guards_witness :
    f_soc_ij (1, 0) (0, 0) 1 1 1 1 = (0, 0) :=
  (f_soc_ij_guards_and_bound (1, 0) (0, 0) 1 1 1 1 (by norm_num)).1
    (Or.inr (Or.inl (by norm_num [socA, dot2d])))

theorem dot2d_neg_right (a b : Vec2) : dot2d a (-b) = -dot2d a b := by
  unfold dot2d
  simp only [Prod.fst_neg, Prod.snd_neg]
  ring

theorem dot2d_scaled_self (w : Vec2) (L : ℝ) (hL : L ≠ 0)
    (hsq : w.1 ^ 2 + w.2 ^ 2 = L ^ 2) :
    dot2d (w.1 / L, w.2 / L) w = L := by
  unfold dot2d
  field_simp
  linear_combination hsq

/-- `(len w)² = w.1² + w.2²`. -/
theorem sq_len (w : Vec2) : len w ^ 2 = w.1 ^ 2 + w.2 ^ 2 :=
  Real.sq_sqrt (by positivity)

/-- For a genuine segment (`p0 ≠ p1`) the projection logic of
`distance_circle_line` never divides by zero: the endpoint-distance
branches are only reachable when the query point differs from that
endpoint. -/
theorem dcl_checked_isSome (x : Vec2) (r : ℝ) (p0 p1 : Vec2) (hp : p0 ≠ p1) :
    (distance_circle_line_checked x r p0 p1).isSome := by
  have hd0 : p1 - p0 ≠ (0 : Vec2) := sub_ne_zero.mpr (Ne.symm hp)
  have hL : len (p1 - p0) ≠ 0 := by
    intro h
    exact hd0 (by simpa [Prod.ext_iff] using (len_zero_iff (p1 - p0)).mp h)
  have hLpos : 0 < len (p1 - p0) := lt_of_le_of_ne (len_nonneg _) (Ne.symm hL)
  have hsq : (p1 - p0).1 ^ 2 + (p1 - p0).2 ^ 2 = len (p1 - p0) ^ 2 :=
    (sq_len _).symm
  simp only [distance_circle_line_checked]
  split_ifs with h0 h1 h2 h3 h4
  · exact absurd h0 hL
  · -- branch `l_t > l_w` with `x = p0`: impossible, there `l_t = l_w`
    exfalso
    have hx : x = p0 := sub_eq_zero.mp ((len_zero_iff (x - p0)).mp h2)
    rw [hx] at h1
    have e1 : dot2d ((p1 - p0).1 / len (p1 - p0), (p1 - p0).2 / len (p1 - p0))
        (p0 - p1) = -(len (p1 - p0)) := by
      rw [show p0 - p1 = -(p1 - p0) from (neg_sub p1 p0).symm, dot2d_neg_right,
        dot2d_scaled_self _ _ hL hsq]
    have e2 : dot2d ((p1 - p0).1 / len (p1 - p0), (p1 - p0).2 / len (p1 - p0))
        (p0 - p0) = 0 := by
      simp [dot2d]
    rw [e1, e2] at h1
    simp at h1
  · rfl
  · -- branch `l_t < −l_w` with `x = p1`: impossible, there `l_t = −l_w`
    exfalso
    have hx : x = p1 := sub_eq_zero.mp ((len_zero_iff (x - p1)).mp h4)
    rw [hx] at h3
    have e1 : dot2d ((p1 - p0).1 / len (p1 - p0), (p1 - p0).2 / len (p1 - p0))
        (p1 - p1) = 0 := by
      simp [dot2d]
    have e2 : dot2d ((p1 - p0).1 / len (p1 - p0), (p1 - p0).2 / len (p1 - p0))
        (p1 - p0) = len (p1 - p0) := dot2d_scaled_self _ _ hL hsq
    rw [e1, e2] at h3
    simp at h3
  · rfl
  · rfl

/-- **C7.** Coincident-point fallbacks of the distance kernels:
`distance_circle_circle` at `x0 = x1` returns `h = −(r0+r1)` with zero
normal, and `distance_circle_line` is well defined (no division by zero,
finite normal) whenever the query point coincides with a segment endpoint
or lies on the segment's carrier line. -/
theorem distance_fallbacks (x0 x1 : Vec2) (r0 r1 : ℝ) (x : Vec2) (r : ℝ)
    (p0 p1 : Vec2) (hp : p0 ≠ p1)
    (hx : x = p0 ∨ x = p1 ∨ ∃ t : ℝ, x = p0 + t • (p1 - p0)) :
    (x0 = x1 → distance_circle_circle x0 r0 x1 r1 = (-(r0 + r1), (0, 0))) ∧
    (distance_circle_line_checked x r p0 p1).isSome := by
  refine ⟨?_, dcl_checked_isSome x r p0 p1 hp⟩
  rintro rfl
  have hlen : len (x0 - x0) = 0 := by simp [len]
  simp [distance_circle_circle, hlen, len]

/-- Witness for `distance_fallbacks`: coincident unit circles at the
origin, query point at the endpoint `p0 = (0,0)` of the unit segment. -/
theorem distance_fallbacks_witness :
    (((0, 0) : Vec2) = (0, 0) →
      distance_circle_circle (0, 0) 1 (0, 0) 1 = (-(1 + 1), (0, 0))) ∧
    (distance_circle_line_checked (0, 0) 1 (0, 0) (1, 0)).isSome :=
  distance_fallbacks (0, 0) (0, 0) 1 1 (0, 0) 1 (0, 0) (1, 0)
    (by norm_num [Prod.ext_iff]) (Or.inl rfl)

theorem roundHalfEven_nonneg (q : ℚ) (h : 0 ≤ q) : 0 ≤ roundHalfEven q := by
  simp only [roundHalfEven]
  have hf : (0 : ℤ) ≤ ⌊q⌋ := Int.floor_nonneg.mpr h
  split_ifs <;> omega

theorem roundHalfEven_le (q : ℚ) (n : ℤ) (h : q ≤ (n : ℚ)) :
    roundHalfEven q ≤ n := by
  have hf : ⌊q⌋ ≤ n := by
    have := Int.floor_le_floor h
    simpa using this
  have hkey : ∀ _ : (1 : ℚ) / 2 ≤ q - (⌊q⌋ : ℚ), ⌊q⌋ + 1 ≤ n := by
    intro hge
    have hfl : (⌊q⌋ : ℚ) + 1 / 2 ≤ (n : ℚ) := by linarith
    have : (⌊q⌋ : ℚ) < (n : ℚ) := by linarith
    have : ⌊q⌋ < n := by exact_mod_cast this
    omega
  simp only [roundHalfEven]
  split_ifs with h1 h2 h3
  · exact hf
  · exact hkey (not_lt.mp h1)
  · exact hf
  · exact hkey (not_lt.mp h1)

/-- **C3** counterexample: on the grid of the `[0,2] × [0,2]` domain with
step `1` (a `3 × 3` direction map), the lookup index computed for the
position `(5, 0)` — beyond the domain edge — is `(0, 5)`, outside the
array: `Navigation.update` performs no clamping (its source carries the
`TODO: Handle index out of bounds` comment). -/
theorem nav_lookup_out_of_bounds_cex :
    ¬ inBounds (navGridShape 0 2 0 2 1) (navLookupIndex (5, 0) 1) := by
  have h1 : navLookupIndex (5, 0) 1 = (0, 5) := by
    norm_num [navLookupIndex, roundHalfEven]
  have h2 : navGridShape 0 2 0 2 1 = (3, 3) := by
    norm_num [navGridShape, arangeLen]
    decide
  rw [h1, h2]
  decide

/-- **C3 amended.** The navigation lookup reads the direction map at the
raw rounded index `(round(y/h), round(x/h))` with no clamping; the read is
in bounds for every position inside the rectangle covered by the grid
(`[0,(cols−1)·h] × [0,(rows−1)·h]` from the grid origin), but a position at
or beyond the domain edge can index outside the array
(`nav_lookup_out_of_bounds_cex`). -/
theorem nav_lookup_inbounds_interior (rows cols : ℕ) (p : ℚ × ℚ) (step : ℚ)
    (hstep : 0 < step) (hrows : 1 ≤ rows) (hcols : 1 ≤ cols)
    (hy0 : 0 ≤ p.2) (hy1 : p.2 ≤ ((rows : ℚ) - 1) * step)
    (hx0 : 0 ≤ p.1) (hx1 : p.1 ≤ ((cols : ℚ) - 1) * step) :
    inBounds (rows, cols) (navLookupIndex p step) := by
  have hy : p.2 / step ≤ (((rows : ℤ) - 1 : ℤ) : ℚ) := by
    rw [div_le_iff hstep]
    push_cast
    linarith
  have hx : p.1 / step ≤ (((cols : ℤ) - 1 : ℤ) : ℚ) := by
    rw [div_le_iff hstep]
    push_cast
    linarith
  have h1 : 0 ≤ roundHalfEven (p.2 / step) :=
    roundHalfEven_nonneg _ (div_nonneg hy0 hstep.le)
  have h2 := roundHalfEven_le (p.2 / step) ((rows : ℤ) - 1) hy
  have h3 : 0 ≤ roundHalfEven (p.1 / step) :=
    roundHalfEven_nonneg _ (div_nonneg hx0 hstep.le)
  have h4 := roundHalfEven_le (p.1 / step) ((cols : ℤ) - 1) hx
  simp only [inBounds, navLookupIndex]
  exact ⟨h1, by omega, h3, by omega⟩

/-- Witness for `nav_lookup_inbounds_interior`: position `(1, 2)` on the
`3 × 3` grid with step `1` reads index `(2, 1)`, in bounds. -/
theorem nav_lookup_inbounds_witness : inBounds (3, 3) (navLookupIndex (1, 2) 1) :=
  nav_lookup_inbounds_interior 3 3 (1, 2) 1 (by norm_num) (by norm_num)
    (by norm_num) (by norm_num) (by norm_num) (by norm_num) (by norm_num)

/-- The two agents of `agent4` are `2` apart. -/
theorem agent4_dist : len (agent4.position 0 - agent4.position 1) = 2 := by
  have hpos : agent4.position 0 - agent4.position 1 = (-2, 0) := by
    norm_num [agent4, zeroAgent, Prod.ext_iff]
  rw [hpos]
  unfold len
  rw [show ((-2 : ℝ), (0 : ℝ)).1 ^ 2 + ((-2 : ℝ), (0 : ℝ)).2 ^ 2 = 2 ^ 2 by
    norm_num]
  exact Real.sqrt_sq (by norm_num)

/-- The `h` reaching the neighbor block of `agent_agent_interaction` on
`agent4` is the circular skin distance `2`. -/
theorem agent4_hNeighbor : hNeighbor agent4 0 1 = 2 := by
  simp only [hNeighbor, agent4_dist]
  rw [if_neg]
  · norm_num [agent4, zeroAgent]
  · rintro ⟨h, -⟩
    norm_num [agent4, zeroAgent] at h

/-- **C4** counterexample: on `agent4` the pair `(0, 1)` is out of sight
(`d = 2 > sight_soc = 1`), yet `agent_agent_interaction` still rewrites the
neighbor buffer of agent `0` (the neighbor-list block is gated only by
`neighbor_radius`, not by sight), so the pair is not skipped entirely. -/
theorem aai_sight_gating_cex :
    len (agent4.position 0 - agent4.position 1) > agent4.sight_soc ∧
    (agent_agent_interaction 0 1 agent4).neighbor_distances 0 ≠
      agent4.neighbor_distances 0 := by
  have hs : agent4.sight_soc = 1 := rfl
  have hphase : aaiForcePhase 0 1 agent4 = agent4 := by
    simp only [aaiForcePhase, agent4_dist, hs]
    rw [if_neg (by norm_num)]
  refine ⟨by rw [agent4_dist, hs]; norm_num, ?_⟩
  have hmax1 : (2 : ℝ) < (insertNeighbor agent4 0 1 2).neighbor_distances_max 1 := by
    have h : (insertNeighbor agent4 0 1 2).neighbor_distances_max 1 = 5 := by
      simp [insertNeighbor, Function.update_apply, agent4, zeroAgent]
    rw [h]
    norm_num
  have hCi : (2 : ℝ) < agent4.neighbor_distances_max 0 := by
    norm_num [agent4, zeroAgent]
  have hfinal : (agent_agent_interaction 0 1 agent4).neighbor_distances 0 = [2] := by
    simp only [agent_agent_interaction, hphase, agent4_hNeighbor]
    rw [if_pos (by constructor <;> norm_num [agent4, zeroAgent])]
    rw [if_pos hCi]
    rw [if_pos hmax1]
    simp [insertNeighbor, Function.update_apply, agent4, zeroAgent,
      argmaxIdx, argmaxAux, listMax]
  rw [hfinal]
  norm_num [agent4, zeroAgent]

/-- **C4 amended.** When the pair is out of sight (`d > sight_soc`) the
force/torque block of `agent_agent_interaction` is skipped — `force[i]`,
`force[j]`, `torque[i]`, `torque[j]` are all left unchanged — but the
neighbor-list maintenance is not sight-gated: it still runs whenever
`neighbor_radius > 0` and `h < neighbor_radius`, and may rewrite the
neighbor state (`aai_sight_gating_cex`). -/
theorem aai_sight_gating_forces (a : Agent) (i j : ℕ)
    (hd : len (a.position i - a.position j) > a.sight_soc) :
    (agent_agent_interaction i j a).force i = a.force i ∧
    (agent_agent_interaction i j a).force j = a.force j ∧
    (agent_agent_interaction i j a).torque i = a.torque i ∧
    (agent_agent_interaction i j a).torque j = a.torque j := by
  have hphase : aaiForcePhase i j a = a := by
    simp only [aaiForcePhase]
    rw [if_neg (not_le.mpr hd)]
  refine ⟨?_, ?_, ?_, ?_⟩
  · rw [aai_force_eq_phase, hphase]
  · rw [aai_force_eq_phase, hphase]
  · rw [aai_torque_eq_phase, hphase]
  · rw [aai_torque_eq_phase, hphase]

/-- Witness for `aai_sight_gating_forces` on the concrete out-of-sight pair
of `agent4`. -/
theorem aai_sight_gating_forces_witness :
    (agent_agent_interaction 0 1 agent4).force 0 = agent4.force 0 ∧
    (agent_agent_interaction 0 1 agent4).force 1 = agent4.force 1 ∧
    (agent_agent_interaction 0 1 agent4).torque 0 = agent4.torque 0 ∧
    (agent_agent_interaction 0 1 agent4).torque 1 = agent4.torque 1 :=
  aai_sight_gating_forces agent4 0 1
    (by rw [agent4_dist]; norm_num [agent4, zeroAgent])

theorem insertNeighbor_nd_self (a : Agent) (i j : ℕ) (h : ℝ) :
    (insertNeighbor a i j h).neighbor_distances i =
      (a.neighbor_distances i).set (argmaxIdx (a.neighbor_distances i)) h := by
  simp [insertNeighbor]

theorem insertNeighbor_nd_other (a : Agent) (i j k : ℕ) (h : ℝ) (hk : k ≠ i) :
    (insertNeighbor a i j h).neighbor_distances k = a.neighbor_distances k := by
  simp [insertNeighbor, Function.update_noteq hk]

theorem insertNeighbor_nb_self (a : Agent) (i j : ℕ) (h : ℝ) :
    (insertNeighbor a i j h).neighbors i =
      (a.neighbors i).set (argmaxIdx (a.neighbor_distances i)) j := by
  simp [insertNeighbor]

theorem insertNeighbor_nb_other (a : Agent) (i j k : ℕ) (h : ℝ) (hk : k ≠ i) :
    (insertNeighbor a i j h).neighbors k = a.neighbors k := by
  simp [insertNeighbor, Function.update_noteq hk]

theorem insertNeighbor_ndm_self (a : Agent) (i j : ℕ) (h : ℝ) :
    (insertNeighbor a i j h).neighbor_distances_max i =
      listMax ((a.neighbor_distances i).set (argmaxIdx (a.neighbor_distances i)) h) := by
  simp [insertNeighbor]

theorem insertNeighbor_ndm_other (a : Agent) (i j k : ℕ) (h : ℝ) (hk : k ≠ i) :
    (insertNeighbor a i j h).neighbor_distances_max k =
      a.neighbor_distances_max k := by
  simp [insertNeighbor, Function.update_noteq hk]

theorem phase_neighbor_radius (i j : ℕ) (a : Agent) :
    (aaiForcePhase i j a).neighbor_radius = a.neighbor_radius := by
  simp only [aaiForcePhase]; split_ifs <;> rfl

theorem phase_neighbor_distances (i j : ℕ) (a : Agent) :
    (aaiForcePhase i j a).neighbor_distances = a.neighbor_distances := by
  simp only [aaiForcePhase]; split_ifs <;> rfl

theorem phase_neighbors (i j : ℕ) (a : Agent) :
    (aaiForcePhase i j a).neighbors = a.neighbors := by
  simp only [aaiForcePhase]; split_ifs <;> rfl

theorem phase_neighbor_distances_max (i j : ℕ) (a : Agent) :
    (aaiForcePhase i j a).neighbor_distances_max = a.neighbor_distances_max := by
  simp only [aaiForcePhase]; split_ifs <;> rfl

/-- **C10.** The neighbor-buffer cache invariant of
`agent_agent_interaction` (under the block's gate `neighbor_radius > 0`
and `h < neighbor_radius`): each agent's buffer is touched exactly when
`h` beats that agent's cached maximum, independently of the other side;
whenever it is touched, the distance row is rewritten exactly at
`np.argmax` of the old row — an index that holds the old row's maximum —
the `neighbors` row is rewritten at the same index, and the cached
`neighbor_distances_max` is re-computed as the maximum of the new row. -/
theorem aai_neighbor_invariant (a : Agent) (i j : ℕ) (hij : i ≠ j)
    (hnr : 0 < a.neighbor_radius)
    (hr : hNeighbor a i j < a.neighbor_radius) :
    (hNeighbor a i j < a.neighbor_distances_max i →
      (agent_agent_interaction i j a).neighbor_distances i =
          (a.neighbor_distances i).set (argmaxIdx (a.neighbor_distances i))
            (hNeighbor a i j) ∧
      (agent_agent_interaction i j a).neighbors i =
          (a.neighbors i).set (argmaxIdx (a.neighbor_distances i)) j ∧
      (agent_agent_interaction i j a).neighbor_distances_max i =
          listMax ((agent_agent_interaction i j a).neighbor_distances i) ∧
      (a.neighbor_distances i ≠ [] →
        (a.neighbor_distances i)[argmaxIdx (a.neighbor_distances i)]? =
          some (listMax (a.neighbor_distances i)))) ∧
    (hNeighbor a i j < a.neighbor_distances_max j →
      (agent_agent_interaction i j a).neighbor_distances j =
          (a.neighbor_distances j).set (argmaxIdx (a.neighbor_distances j))
            (hNeighbor a i j) ∧
      (agent_agent_interaction i j a).neighbors j =
          (a.neighbors j).set (argmaxIdx (a.neighbor_distances j)) i ∧
      (agent_agent_interaction i j a).neighbor_distances_max j =
          listMax ((agent_agent_interaction i j a).neighbor_distances j) ∧
      (a.neighbor_distances j ≠ [] →
        (a.neighbor_distances j)[argmaxIdx (a.neighbor_distances j)]? =
          some (listMax (a.neighbor_distances j)))) := by
  have h1 := phase_neighbor_radius i j a
  have h2 := phase_neighbor_distances_max i j a
  have h3 := phase_neighbor_distances i j a
  have h4 := phase_neighbors i j a
  have hgate : 0 < (aaiForcePhase i j a).neighbor_radius ∧
      hNeighbor a i j < (aaiForcePhase i j a).neighbor_radius :=
    ⟨by rw [h1]; exact hnr, by rw [h1]; exact hr⟩
  by_cases hmi : hNeighbor a i j < a.neighbor_distances_max i <;>
    by_cases hmj : hNeighbor a i j < a.neighbor_distances_max j
  · -- both insertions fire
    have ci : hNeighbor a i j <
        (aaiForcePhase i j a).neighbor_distances_max i := by rw [h2]; exact hmi
    have cj : hNeighbor a i j <
        (insertNeighbor (aaiForcePhase i j a) i j
          (hNeighbor a i j)).neighbor_distances_max j := by
      rw [insertNeighbor_ndm_other _ _ _ _ _ hij.symm, h2]; exact hmj
    have key : agent_agent_interaction i j a =
        insertNeighbor
          (insertNeighbor (aaiForcePhase i j a) i j (hNeighbor a i j)) j i
          (hNeighbor a i j) := by
      simp only [agent_agent_interaction]
      rw [if_pos hgate, if_pos ci, if_pos cj]
    constructor
    · intro _
      refine ⟨?_, ?_, ?_, fun hne => argmaxIdx_get _ hne⟩
      · rw [key, insertNeighbor_nd_other _ _ _ _ _ hij,
          insertNeighbor_nd_self, h3]
      · rw [key, insertNeighbor_nb_other _ _ _ _ _ hij,
          insertNeighbor_nb_self, h3, h4]
      · rw [key, insertNeighbor_ndm_other _ _ _ _ _ hij,
          insertNeighbor_ndm_self, insertNeighbor_nd_other _ _ _ _ _ hij,
          insertNeighbor_nd_self]
    · intro _
      refine ⟨?_, ?_, ?_, fun hne => argmaxIdx_get _ hne⟩
      · rw [key, insertNeighbor_nd_self,
          insertNeighbor_nd_other _ _ _ _ _ hij.symm, h3]
      · rw [key, insertNeighbor_nb_self,
          insertNeighbor_nb_other _ _ _ _ _ hij.symm,
          insertNeighbor_nd_other _ _ _ _ _ hij.symm, h3, h4]
      · rw [key, insertNeighbor_ndm_self, insertNeighbor_nd_self]
  · -- only agent i's insertion fires
    have ci : hNeighbor a i j <
        (aaiForcePhase i j a).neighbor_distances_max i := by rw [h2]; exact hmi
    have cj : ¬ hNeighbor a i j <
        (insertNeighbor (aaiForcePhase i j a) i j
          (hNeighbor a i j)).neighbor_distances_max j := by
      rw [insertNeighbor_ndm_other _ _ _ _ _ hij.symm, h2]; exact hmj
    have key : agent_agent_interaction i j a =
        insertNeighbor (aaiForcePhase i j a) i j (hNeighbor a i j) := by
      simp only [agent_agent_interaction]
      rw [if_pos hgate, if_pos ci, if_neg cj]
    constructor
    · intro _
      refine ⟨?_, ?_, ?_, fun hne => argmaxIdx_get _ hne⟩
      · rw [key, insertNeighbor_nd_self, h3]
      · rw [key, insertNeighbor_nb_self, h3, h4]
      · rw [key, insertNeighbor_ndm_self, insertNeighbor_nd_self]
    · intro hmj2
      exact absurd hmj2 hmj
  · -- only agent j's insertion fires
    have ci : ¬ hNeighbor a i j <
        (aaiForcePhase i j a).neighbor_distances_max i := by rw [h2]; exact hmi
    have cj : hNeighbor a i j <
        (aaiForcePhase i j a).neighbor_distances_max j := by rw [h2]; exact hmj
    have key : agent_agent_interaction i j a =
        insertNeighbor (aaiForcePhase i j a) j i (hNeighbor a i j) := by
      simp only [agent_agent_interaction]
      rw [if_pos hgate, if_neg ci, if_pos cj]
    constructor
    · intro hmi2
      exact absurd hmi2 hmi
    · intro _
      refine ⟨?_, ?_, ?_, fun hne => argmaxIdx_get _ hne⟩
      · rw [key, insertNeighbor_nd_self, h3]
      · rw [key, insertNeighbor_nb_self, h3, h4]
      · rw [key, insertNeighbor_ndm_self, insertNeighbor_nd_self]
  · -- neither fires: both sides are vacuous
    exact ⟨fun hmi2 => absurd hmi2 hmi, fun hmj2 => absurd hmj2 hmj⟩

/-- The `h` reaching the neighbor block on `agent10` is `1`. -/
theorem agent10_hN : hNeighbor agent10 0 1 = 1 := by
  have hpos : agent10.position 0 - agent10.position 1 = (-1, 0) := by
    norm_num [agent10, zeroAgent, Prod.ext_iff]
  have hlen : len (agent10.position 0 - agent10.position 1) = 1 := by
    rw [hpos]
    unfold len
    rw [show ((-1 : ℝ), (0 : ℝ)).1 ^ 2 + ((-1 : ℝ), (0 : ℝ)).2 ^ 2 = 1 ^ 2 by
      norm_num]
    exact Real.sqrt_sq (by norm_num)
  simp only [hNeighbor, hlen]
  rw [if_neg]
  · norm_num [agent10, zeroAgent]
  · rintro ⟨h, -⟩
    norm_num [agent10, zeroAgent] at h

/-- Witness for `aai_neighbor_invariant` on the concrete pair `(0, 1)` of
`agent10` (rows `[5, 2]`, cached maximum `5`, inserted distance `1`): both
implications are discharged at the concrete store. -/
theorem aai_neighbor_invariant_witness :
    ((agent_agent_interaction 0 1 agent10).neighbor_distances 0 =
        (agent10.neighbor_distances 0).set
          (argmaxIdx (agent10.neighbor_distances 0)) (hNeighbor agent10 0 1) ∧
      (agent_agent_interaction 0 1 agent10).neighbors 0 =
        (agent10.neighbors 0).set
          (argmaxIdx (agent10.neighbor_distances 0)) 1 ∧
      (agent_agent_interaction 0 1 agent10).neighbor_distances_max 0 =
        listMax ((agent_agent_interaction 0 1 agent10).neighbor_distances 0) ∧
      (agent10.neighbor_distances 0 ≠ [] →
        (agent10.neighbor_distances 0)[argmaxIdx (agent10.neighbor_distances 0)]? =
          some (listMax (agent10.neighbor_distances 0)))) ∧
    ((agent_agent_interaction 0 1 agent10).neighbor_distances 1 =
        (agent10.neighbor_distances 1).set
          (argmaxIdx (agent10.neighbor_distances 1)) (hNeighbor agent10 0 1) ∧
      (agent_agent_interaction 0 1 agent10).neighbors 1 =
        (agent10.neighbors 1).set
          (argmaxIdx (agent10.neighbor_distances 1)) 0 ∧
      (agent_agent_interaction 0 1 agent10).neighbor_distances_max 1 =
        listMax ((agent_agent_interaction 0 1 agent10).neighbor_distances 1) ∧
      (agent10.neighbor_distances 1 ≠ [] →
        (agent10.neighbor_distances 1)[argmaxIdx (agent10.neighbor_distances 1)]? =
          some (listMax (agent10.neighbor_distances 1)))) :=
  ⟨(aai_neighbor_invariant agent10 0 1 (by norm_num)
      (by norm_num [agent10, zeroAgent])
      (by rw [agent10_hN]; norm_num [agent10, zeroAgent])).1
      (by rw [agent10_hN]; norm_num [agent10, zeroAgent]),
   (aai_neighbor_invariant agent10 0 1 (by norm_num)
      (by norm_num [agent10, zeroAgent])
      (by rw [agent10_hN]; norm_num [agent10, zeroAgent])).2
      (by rw [agent10_hN]; norm_num [agent10, zeroAgent])⟩

theorem len_neg5 : len ((-5 : ℝ), (0 : ℝ)) = 5 := by
  unfold len
  rw [show ((-5 : ℝ), (0 : ℝ)).1 ^ 2 + ((-5 : ℝ), (0 : ℝ)).2 ^ 2 = 5 ^ 2 by
    norm_num]
  exact Real.sqrt_sq (by norm_num)

theorem dcc_c2 : distance_circle_circle 0 1 (5, 0) 1 = (3, (-1, 0)) := by
  have hsub : (0 : Vec2) - (5, 0) = (-5, 0) := by
    norm_num [Prod.ext_iff]
  simp only [distance_circle_circle, hsub, len_neg5]
  rw [if_neg (by norm_num)]
  norm_num [Prod.ext_iff]

theorem d3cBest_c2 : d3cBest c2x0 c2r0 c2x1 c2r1 = some (3, (-1, 0), 0, 0) := by
  simp [d3cBest, allPairs3, c2x0, c2r0, c2x1, c2r1, dcc_c2]

/-- **C2** (code-bug evaluation): on two degenerate three-circle bodies —
all disks of body 0 at the origin, all disks of body 1 at `(5, 0)`, all
radii `1` — `distance_three_circle` returns `r_moment1 = (−4, 0)`, built
from `x0[j_min]` (body 0's disk, source line 103), whereas the documented
formula `x1_chosen − r1_chosen·n̂ − x1_torso` gives `(1, 0)`; the in-lined
variant `agent_agent_distance_three_circle` on the same configuration does
return `(1, 0)`. -/
theorem distance_three_circle_moment_bug :
    distance_three_circle c2x0 c2r0 c2x1 c2r1 = (3, (-1, 0), (-1, 0), (-4, 0)) ∧
    c2x1 0 - c2r1 0 • ((-1 : ℝ), (0 : ℝ)) - c2x1 0 = ((1 : ℝ), (0 : ℝ)) ∧
    ((-4 : ℝ), (0 : ℝ)) ≠ ((1 : ℝ), (0 : ℝ)) ∧
    (agent_agent_distance_three_circle agent2 0 1).2.2.2 = (1, 0) := by
  have hsub : ((0, 0) : Vec2) - (5, 0) = (-5, 0) := by
    norm_num [Prod.ext_iff]
  have hbest : aad3cBest agent2 0 1 =
      some (3, (((0 : ℝ), (0 : ℝ)), ((5 : ℝ), (0 : ℝ))),
        ((1 : ℝ), (1 : ℝ)), ((-1 : ℝ), (0 : ℝ))) := by
    simp [aad3cBest, allPairs3, diskPos, diskRad, agent2, zeroAgent, hsub,
      len_neg5, Prod.ext_iff]
    norm_num
  refine ⟨?_, ?_, ?_, ?_⟩
  · simp only [distance_three_circle, d3cBest_c2]
    norm_num [c2x0, c2r0, c2x1, c2r1, Prod.ext_iff]
  · norm_num [c2x1, c2r1, Prod.ext_iff]
  · norm_num [Prod.ext_iff]
  · simp only [agent_agent_distance_three_circle, hbest]
    norm_num [agent2, zeroAgent, Prod.ext_iff]

theorem len_020 : len ((0 : ℝ), (20 : ℝ)) = 20 := by
  unfold len
  rw [show ((0 : ℝ), (20 : ℝ)).1 ^ 2 + ((0 : ℝ), (20 : ℝ)).2 ^ 2 = 20 ^ 2 by
    norm_num]
  exact Real.sqrt_sq (by norm_num)

theorem wall5_sub : ((0, 10) : Vec2) - (0, -10) = (0, 20) := by
  norm_num [Prod.ext_iff]

theorem dwn5_center :
    distance_with_normal (0, -10) (0, 10) (5, 0) = (5, (1, 0)) := by
  simp only [distance_with_normal, distance_circle_line, wall5_sub, len_020]
  rw [if_neg (by norm_num [dot2d]), if_neg (by norm_num [dot2d])]
  rw [show dot2d (rotate90 ((0 : ℝ) / 20, (20 : ℝ) / 20))
      (((5 : ℝ), (0 : ℝ)) - (0, -10)) = -5 by norm_num [dot2d, rotate90]]
  rw [Real.sign_of_neg (by norm_num : (-5 : ℝ) < 0)]
  norm_num [rotate90, Prod.ext_iff]

theorem dwn5_ls :
    distance_with_normal (0, -10) (0, 10) (3, 1) = (3, (1, 0)) := by
  simp only [distance_with_normal, distance_circle_line, wall5_sub, len_020]
  rw [if_neg (by norm_num [dot2d]), if_neg (by norm_num [dot2d])]
  rw [show dot2d (rotate90 ((0 : ℝ) / 20, (20 : ℝ) / 20))
      (((3 : ℝ), (1 : ℝ)) - (0, -10)) = -3 by norm_num [dot2d, rotate90]]
  rw [Real.sign_of_neg (by norm_num : (-3 : ℝ) < 0)]
  norm_num [rotate90, Prod.ext_iff]

theorem dwn5_rs :
    distance_with_normal (0, -10) (0, 10) (7, -1) = (7, (1, 0)) := by
  simp only [distance_with_normal, distance_circle_line, wall5_sub, len_020]
  rw [if_neg (by norm_num [dot2d]), if_neg (by norm_num [dot2d])]
  rw [show dot2d (rotate90 ((0 : ℝ) / 20, (20 : ℝ) / 20))
      (((7 : ℝ), (-1 : ℝ)) - (0, -10)) = -7 by norm_num [dot2d, rotate90]]
  rw [Real.sign_of_neg (by norm_num : (-7 : ℝ) < 0)]
  norm_num [rotate90, Prod.ext_iff]

theorem awdBest5 : awdBest agent5 walls5 0 0 =
    some (5 / 2, ((3 : ℝ), (1 : ℝ)), 1 / 2, ((1 : ℝ), (0 : ℝ))) := by
  simp [awdBest, diskPos, diskRad, agent5, zeroAgent, walls5,
    dwn5_center, dwn5_ls, dwn5_rs, Prod.ext_iff]
  norm_num

theorem awd5 : agent_wall_distance agent5 walls5 0 0 =
    (5 / 2, (1, 0), (-(5 / 2 : ℝ), (1 : ℝ))) := by
  simp only [agent_wall_distance, awdBest5]
  norm_num [agent5, zeroAgent, Prod.ext_iff]

/-- The wall social force on `agent5` (spec-modelled Helbing law):
`exp(−4)·(1, 0)`. -/
theorem fslw5 : force_social_linear_wall 0 0 agent5 walls5 =
    ((Real.exp (-4), 0) : Vec2) := by
  have hw : walls5 0 = ((0, -10), (0, 10)) := rfl
  have hp : agent5.position 0 = (5, 0) := rfl
  simp only [force_social_linear_wall, hw, hp, dwn5_center,
    force_social_helbing]
  have hr : agent5.radius 0 = 1 := rfl
  have ha : agent5.a_wall = 1 := rfl
  have hb : agent5.b_wall = 1 := rfl
  rw [hr, ha, hb]
  norm_num [Prod.ext_iff]

/-- **C5** (code-bug evaluation): on the concrete three-circle agent
`agent5` facing the vertical wall `walls5`, the left shoulder is the
closest disk with moment arm `(−5/2, 1)` and the wall force is
`exp(−4)·(1, 0)`, so the claimed torque `cross(r_moment, f)` is
`−exp(−4) ≠ 0`; but `agent_wall_interaction` accumulates torque `0`
(it overwrites `r_moment_i` with zeros at source line 171), leaving
`torque[0]` unchanged. -/
theorem agent_wall_torque_bug :
    (agent_wall_interaction 0 0 agent5 walls5).torque 0 = agent5.torque 0 ∧
    (agent_wall_distance agent5 walls5 0 0).2.2 = (-(5 / 2 : ℝ), (1 : ℝ)) ∧
    cross2d (agent_wall_distance agent5 walls5 0 0).2.2
      ((agent_wall_interaction 0 0 agent5 walls5).force 0 - agent5.force 0) ≠
      0 := by
  have hw : walls5 0 = ((0, -10), (0, 10)) := rfl
  have hp : agent5.position 0 = (5, 0) := rfl
  have hr : agent5.radius 0 = 1 := rfl
  have h3c : agent5.three_circle = true := rfl
  have hor : agent5.orientable = true := rfl
  have hkey : agent_wall_interaction 0 0 agent5 walls5 =
      { agent5 with
        force := Function.update agent5.force 0
          (agent5.force 0 + (Real.exp (-4), 0))
        torque := Function.update agent5.torque 0
          (agent5.torque 0 + cross2d ((0 : ℝ), (0 : ℝ)) (Real.exp (-4), 0)) } := by
    simp only [agent_wall_interaction, hw, hp, dwn5_center, hr, h3c, hor,
      awd5, fslw5, if_true]
    rw [if_pos (by norm_num [agent5, zeroAgent] :
      (5 : ℝ) - 1 ≤ agent5.sight_wall)]
    rw [if_neg (by norm_num : ¬((5 / 2 : ℝ) < 0))]
  refine ⟨?_, ?_, ?_⟩
  · rw [hkey]
    simp [cross2d]
  · rw [awd5]
  · rw [awd5, hkey]
    simp only [Function.update_same]
    have hd : agent5.force 0 + ((Real.exp (-4) : ℝ), (0 : ℝ)) - agent5.force 0 =
        ((Real.exp (-4) : ℝ), (0 : ℝ)) := by abel
    rw [hd]
    simp only [cross2d]
    have := Real.exp_pos (-4 : ℝ)
    norm_num

theorem len_sub_comm (a b : Vec2) : len (a - b) = len (b - a) := by
  unfold len
  congr 1
  simp only [Prod.fst_sub, Prod.snd_sub]
  ring

/-- A `some` lookup is within bounds. -/
theorem getElem?_some_lt (l : List Vec2) (k : ℕ) (pk : Vec2)
    (h : l[k]? = some pk) : k < l.length := by
  by_contra hc
  rw [List.getElem?_eq_none_iff.mpr (not_lt.mp hc)] at h
  exact Option.noConfusion h

/-- One accepted Monte-Carlo trial preserves the placement invariants. -/
theorem rpAccept_preserves (placed : List Vec2) (pos : Vec2)
    (radius : ℕ → ℝ) (walls : List (Vec2 → ℝ))
    (hpair : pairwiseNonoverlap placed radius)
    (hwall : wallsClear placed radius walls)
    (hacc : rpAccept placed radius walls pos) :
    pairwiseNonoverlap (placed ++ [pos]) radius ∧
      wallsClear (placed ++ [pos]) radius walls := by
  constructor
  · intro k m pk pm hkm hk hm
    have hmlt : m < placed.length + 1 := by
      have := getElem?_some_lt _ _ _ hm
      simpa using this
    rcases lt_or_eq_of_le (Nat.lt_succ_iff.mp hmlt) with hmlen | hmlen
    · have hk' : placed[k]? = some pk := by
        rwa [List.getElem?_append_left (hkm.trans hmlen)] at hk
      have hm' : placed[m]? = some pm := by
        rwa [List.getElem?_append_left hmlen] at hm
      exact hpair k m pk pm hkm hk' hm'
    · subst hmlen
      have hk' : placed[k]? = some pk := by
        rwa [List.getElem?_append_left hkm] at hk
      have hm' : pm = pos := by
        rw [List.getElem?_concat_length] at hm
        exact (Option.some_inj.mp hm).symm
      subst hm'
      have hgt := hacc.1 k pk hk'
      have hcomm := len_sub_comm pk pm
      linarith
  · intro k pk hk wd hwd
    have hklt : k < placed.length + 1 := by
      have := getElem?_some_lt _ _ _ hk
      simpa using this
    rcases lt_or_eq_of_le (Nat.lt_succ_iff.mp hklt) with hklen | hklen
    · have hk' : placed[k]? = some pk := by
        rwa [List.getElem?_append_left hklen] at hk
      exact hwall k pk hk' wd hwd
    · subst hklen
      have hk' : pk = pos := by
        rw [List.getElem?_concat_length] at hk
        exact (Option.some_inj.mp hk).symm
      subst hk'
      exact hacc.2 wd hwd

/-- One-step unfolding: all slots filled, any fuel. -/
theorem rpLoop_done (draws : ℕ → Vec2) (radius : ℕ → ℝ) (N : ℕ)
    (walls : List (Vec2 → ℝ)) (fuel : ℕ) (placed : List Vec2) (iters : ℕ)
    (h1 : N ≤ placed.length) :
    rpLoop draws radius N walls fuel placed iters = (some placed, iters) := by
  cases fuel <;> simp only [rpLoop] <;> rw [if_pos h1]

/-- One-step unfolding: open slots, no fuel left — the raise. -/
theorem rpLoop_raise (draws : ℕ → Vec2) (radius : ℕ → ℝ) (N : ℕ)
    (walls : List (Vec2 → ℝ)) (placed : List Vec2) (iters : ℕ)
    (h1 : ¬ N ≤ placed.length) :
    rpLoop draws radius N walls 0 placed iters = (none, iters) := by
  simp only [rpLoop]
  rw [if_neg h1]

/-- One-step unfolding: open slots, trial accepted. -/
theorem rpLoop_accept (draws : ℕ → Vec2) (radius : ℕ → ℝ) (N : ℕ)
    (walls : List (Vec2 → ℝ)) (fuel : ℕ) (placed : List Vec2) (iters : ℕ)
    (h1 : ¬ N ≤ placed.length)
    (h2 : rpAccept placed radius walls (draws iters)) :
    rpLoop draws radius N walls (fuel + 1) placed iters =
      rpLoop draws radius N walls fuel (placed ++ [draws iters]) (iters + 1) := by
  simp only [rpLoop]
  rw [if_neg h1, if_pos h2]

/-- One-step unfolding: open slots, trial rejected. -/
theorem rpLoop_reject (draws : ℕ → Vec2) (radius : ℕ → ℝ) (N : ℕ)
    (walls : List (Vec2 → ℝ)) (fuel : ℕ) (placed : List Vec2) (iters : ℕ)
    (h1 : ¬ N ≤ placed.length)
    (h2 : ¬ rpAccept placed radius walls (draws iters)) :
    rpLoop draws radius N walls (fuel + 1) placed iters =
      rpLoop draws radius N walls fuel placed (iters + 1) := by
  simp only [rpLoop]
  rw [if_neg h1, if_neg h2]

/-- The loop raises only after burning its whole iteration budget: a `none`
result carries the final `iterations` value `iters + fuel`. -/
theorem rpLoop_none_iters (draws : ℕ → Vec2) (radius : ℕ → ℝ) (N : ℕ)
    (walls : List (Vec2 → ℝ)) :
    ∀ fuel (placed : List Vec2) (iters : ℕ),
      (rpLoop draws radius N walls fuel placed iters).1 = none →
      (rpLoop draws radius N walls fuel placed iters).2 = iters + fuel := by
  intro fuel
  induction fuel with
  | zero =>
    intro placed iters h
    by_cases h1 : N ≤ placed.length
    · rw [rpLoop_done draws radius N walls 0 placed iters h1] at h
      exact absurd h (by simp)
    · rw [rpLoop_raise draws radius N walls placed iters h1]
      rfl
  | succ fuel ih =>
    intro placed iters h
    by_cases h1 : N ≤ placed.length
    · rw [rpLoop_done draws radius N walls (fuel + 1) placed iters h1] at h
      exact absurd h (by simp)
    · by_cases h2 : rpAccept placed radius walls (draws iters)
      · rw [rpLoop_accept draws radius N walls fuel placed iters h1 h2] at h ⊢
        rw [ih _ _ h]
        omega
      · rw [rpLoop_reject draws radius N walls fuel placed iters h1 h2] at h ⊢
        rw [ih _ _ h]
        omega

/-- A successful loop result satisfies the placement invariants, given that
the already-placed prefix does. -/
theorem rpLoop_some_inv (draws : ℕ → Vec2) (radius : ℕ → ℝ) (N : ℕ)
    (walls : List (Vec2 → ℝ)) :
    ∀ fuel (placed : List Vec2) (iters : ℕ) (l : List Vec2),
      pairwiseNonoverlap placed radius → wallsClear placed radius walls →
      (rpLoop draws radius N walls fuel placed iters).1 = some l →
      pairwiseNonoverlap l radius ∧ wallsClear l radius walls := by
  intro fuel
  induction fuel with
  | zero =>
    intro placed iters l hpair hwall h
    by_cases h1 : N ≤ placed.length
    · rw [rpLoop_done draws radius N walls 0 placed iters h1] at h
      cases Option.some_inj.mp h
      exact ⟨hpair, hwall⟩
    · rw [rpLoop_raise draws radius N walls placed iters h1] at h
      exact absurd h (by simp)
  | succ fuel ih =>
    intro placed iters l hpair hwall h
    by_cases h1 : N ≤ placed.length
    · rw [rpLoop_done draws radius N walls (fuel + 1) placed iters h1] at h
      cases Option.some_inj.mp h
      exact ⟨hpair, hwall⟩
    · by_cases h2 : rpAccept placed radius walls (draws iters)
      · rw [rpLoop_accept draws radius N walls fuel placed iters h1 h2] at h
        obtain ⟨hp2, hw2⟩ :=
          rpAccept_preserves placed (draws iters) radius walls hpair hwall h2
        exact ih _ _ _ hp2 hw2 h
      · rw [rpLoop_reject draws radius N walls fuel placed iters h1 h2] at h
        exact ih _ _ _ hpair hwall h

/-- **C8.** `random_position` either terminates normally with every placed
disk non-overlapping (`‖pos_i − pos_j‖ ≥ r_i + r_j` for `i ≠ j` — in fact
strictly) and at positive skin distance from every wall, or raises — and
it raises exactly when the total number of Monte-Carlo trials has reached
`100·N`. -/
theorem random_position_spec (draws : ℕ → Vec2) (radius : ℕ → ℝ) (N : ℕ)
    (walls : List (Vec2 → ℝ)) :
    (∀ l, (random_position draws radius N walls).1 = some l →
        pairwiseNonoverlap l radius ∧ wallsClear l radius walls) ∧
    ((random_position draws radius N walls).1 = none →
        (random_position draws radius N walls).2 = 100 * N) := by
  constructor
  · intro l h
    refine rpLoop_some_inv draws radius N walls (100 * N) [] 0 l ?_ ?_ h
    · intro k m pk pm _ hk _
      simp at hk
    · intro k pk hk
      simp at hk
  · intro h
    have := rpLoop_none_iters draws radius N walls (100 * N) [] 0 h
    simpa using this

/-- Witness for `random_position_spec`: one slot, unit radius, no walls,
constant draw at the origin; the loop accepts the first trial and returns
`some [(0, 0)]`. -/
theorem random_position_witness :
    pairwiseNonoverlap [((0 : ℝ), (0 : ℝ))] (fun _ => 1) ∧
    wallsClear [((0 : ℝ), (0 : ℝ))] (fun _ => 1) [] :=
  (random_position_spec (fun _ => (0, 0)) (fun _ => 1) 1 []).1 [(0, 0)] (by
    show (rpLoop (fun _ => (0, 0)) (fun _ => 1) 1 [] (100 * 1) [] 0).1 =
      some [(0, 0)]
    rw [show 100 * 1 = 99 + 1 from rfl]
    rw [rpLoop_accept _ _ _ _ 99 [] 0 (by simp)
      ⟨fun k pk hk => by simp at hk, fun wd hwd => by simp at hwd⟩]
    rw [rpLoop_done _ _ _ _ 99 _ 1 (by simp)]
    simp)
